import Mathlib

/-!
# EV Charging Atlas — verification of the route-search core

This file is a shallow embedding of the route-search logic embedded in the
map-builder scripts of the `ev_charging_atlas` repository:

* `build_ev_atlas_v6_with_my_updates_.py` — the route planner script block
  (`haversineKm`, `minDistKm`, `nominatimSuggest`, `geocodeFirst`, `doRoute`,
  the `btn-clear` handler), embedded in namespace `V6`;
* `build_ev_atlas_v7_messy.py` — `findRoute` and its inline charger-gap scan,
  embedded in namespace `V7`;
* the patched `nominatimSuggest` fragment (label cleaning + de-duplication),
  embedded in namespace `Patch`.

JavaScript numbers are modelled as real numbers; `Infinity` (the seed of the
vertex-distance minimum) is modelled by `⊤ : EReal`.  Network access is
modelled by explicit oracles (`String → Option …`), where `none` stands for
any failed fetch (HTTP error status, transport error, or unparseable JSON
body); every model function reports the number of network requests it issues.
User-visible message strings that matter to the claims are modelled by
dedicated inductive types, one constructor per distinct message of the source.
-/

open Real

namespace EvAtlas

/-! ## Shared data model -/

/-- One geocoder response item, as consumed by the scripts: `display_name`
plus (already numeric) coordinates. -/
structure Raw where
  display_name : String
  lat : ℝ
  lon : ℝ

/-- A place candidate as stored in the suggestion cache
(`{ label, lat, lon }` in the source). -/
structure Candidate where
  label : String
  lat : ℝ
  lon : ℝ

/-- The `geoCache` JavaScript `Map`, modelled as an association list; `set`
prepends, `get`/`has` read the most recent binding of a key. -/
abbrev GeoCache := List (String × List Candidate)

/-- Result of one `nominatimSuggest` call: the cache afterwards, the returned
candidate list, and how many network requests were issued (0 or 1). -/
structure SuggestOut where
  cache : GeoCache
  out : List Candidate
  netCalls : ℕ

/-- One charger point of the `EV_POINTS` array of `build_map` (v6). -/
structure EvPoint where
  lat : ℝ
  lon : ℝ
  status : String
  usage : String
  fast : Bool
  title : String
  operator : String
  town : String
  state : String
  power_kw : Option ℝ

/-- `ROUTE_PROXIMITY_KM = 5.0` (v6 configuration). -/
def ROUTE_PROXIMITY_KM : ℝ := 5.0

/-- `CHARGER_GAP_KM = 300.0` (v7 configuration). -/
def CHARGER_GAP_KM : ℝ := 300.0

/-- JavaScript's `String.prototype.trim()`: strip leading and trailing
whitespace.  (Defined structurally on the character list so that concrete
instances evaluate inside the kernel.) -/
def jsTrim (s : String) : String :=
  ⟨((s.data.dropWhile Char.isWhitespace).reverse.dropWhile Char.isWhitespace).reverse⟩

/-- JavaScript's `String.prototype.split(',')`, on character lists. -/
def splitCommaAux : List Char → List Char → List (List Char)
  | [], acc => [acc.reverse]
  | c :: rest, acc =>
    if c = ',' then acc.reverse :: splitCommaAux rest []
    else splitCommaAux rest (c :: acc)

/-- JavaScript's `Math.atan2(y, x)`. -/
noncomputable def atan2 (y x : ℝ) : ℝ :=
  if 0 < x then Real.arctan (y / x)
  else if x < 0 then
    (if 0 ≤ y then Real.arctan (y / x) + π else Real.arctan (y / x) - π)
  else if 0 < y then π / 2
  else if y < 0 then -(π / 2)
  else 0

namespace V6

/-- `haversineKm(lat1, lon1, lat2, lon2)` of v6, lines 534–541:
`R = 6371.0`, degree-to-radian conversion, law of haversines, and
`c = 2*atan2(√a, √(1-a))`. -/
noncomputable def haversineKm (lat1 lon1 lat2 lon2 : ℝ) : ℝ :=
  let R : ℝ := 6371.0
  let dLat := (lat2 - lat1) * π / 180.0
  let dLon := (lon2 - lon1) * π / 180.0
  let a := Real.sin (dLat / 2) ^ 2 +
    Real.cos (lat1 * π / 180) * Real.cos (lat2 * π / 180) * Real.sin (dLon / 2) ^ 2
  let c := 2 * atan2 (Real.sqrt a) (Real.sqrt (1 - a))
  R * c

/-- The central angle `c` of `haversineKm`, split out so that the theorem for
claim C8 can state that `haversineKm` is exactly Earth radius 6371.0 times
this angle. -/
noncomputable def havAngle (lat1 lon1 lat2 lon2 : ℝ) : ℝ :=
  let dLat := (lat2 - lat1) * π / 180.0
  let dLon := (lon2 - lon1) * π / 180.0
  let a := Real.sin (dLat / 2) ^ 2 +
    Real.cos (lat1 * π / 180) * Real.cos (lat2 * π / 180) * Real.sin (dLon / 2) ^ 2
  2 * atan2 (Real.sqrt a) (Real.sqrt (1 - a))

/-- `minDistKm(lat, lon, coords)` of v6, lines 542–550: the minimum haversine
distance from `(lat, lon)` to the vertices of `coords`.  Each vertex is a
GeoJSON `[lon, lat]` pair, hence the swapped projections; the JavaScript seed
`Infinity` is `⊤ : EReal`. -/
noncomputable def minDistKm (lat lon : ℝ) (coords : List (ℝ × ℝ)) : EReal :=
  coords.foldl
    (fun best p =>
      if ((haversineKm lat lon p.2 p.1 : ℝ) : EReal) < best then
        ((haversineKm lat lon p.2 p.1 : ℝ) : EReal)
      else best)
    ⊤

/-- The `EV_POINTS.forEach` proximity filter inside `doRoute` (v6, lines
626–636): a point is kept exactly when `minDistKm(pt.lat, pt.lon, coords)` is
at most the proximity threshold; traversal order is the array order. -/
noncomputable def nearPts (pts : List EvPoint) (coords : List (ℝ × ℝ)) (prox : ℝ) :
    List EvPoint :=
  pts.filter fun pt => decide (minDistKm pt.lat pt.lon coords ≤ ((prox : ℝ) : EReal))

/-- `nominatimSuggest(q, which)` of v6, lines 554–567, as a state transition on
the cache.  `net q = some data` models a successful fetch of the suggestion
URL for `q`; `net q = none` models `!resp.ok` or a thrown fetch/JSON error
(the `catch` branch, which returns `[]` without touching the cache). -/
def nominatimSuggest (net : String → Option (List Raw)) (cache : GeoCache)
    (q which : String) : SuggestOut :=
  if q.length < 3 then ⟨cache, [], 0⟩
  else
    let key := which ++ "|" ++ jsTrim q
    match cache.lookup key with
    | some items => ⟨cache, items, 0⟩
    | none =>
      match net q with
      | some data =>
        let items := data.map fun d => ⟨d.display_name, d.lat, d.lon⟩
        ⟨(key, items) :: cache, items, 1⟩
      | none => ⟨cache, [], 1⟩

/-- `geocodeFirst(label, which)` of v6, lines 579–583: serve `cached[0]` on a
cache hit, otherwise delegate to `nominatimSuggest` and take the first
candidate (`arr[0] || null` is `List.head?`). -/
def geocodeFirst (net : String → Option (List Raw)) (cache : GeoCache)
    (label which : String) : Option Candidate × GeoCache × ℕ :=
  let key := which ++ "|" ++ jsTrim label
  match cache.lookup key with
  | some arr => (arr.head?, cache, 0)
  | none =>
    let r := nominatimSuggest net cache label which
    (r.out.head?, r.cache, r.netCalls)

/-- The distinct `route-msg` texts written by the v6 route planner script. -/
inductive Msg where
  /-- `''` (the cleared message area). -/
  | empty
  /-- `'Finding route...'`. -/
  | findingRoute
  /-- `'Please enter both origin and destination.'`. -/
  | inputIncomplete
  /-- `'Could not find one or both places. Try being more specific.'`. -/
  | notFound
  /-- `'Route unavailable. Try a nearby suburb or major city.'`. -/
  | routeUnavailable
  /-- `` `Found route (N km). Chargers within 5.0 km highlighted.` ``. -/
  | found (totalKm : ℝ)

/-- `routes[i].geometry` as used by `doRoute`: a GeoJSON geometry carrying
`coordinates`, a list of `[lon, lat]` vertices. -/
structure GeoObj where
  coordinates : List (ℝ × ℝ)

/-- One entry of the OSRM `routes` array: `geometry` may be absent or of the
wrong shape (`none`), `distance` may be absent (`none`). -/
structure RouteObj where
  geometry : Option GeoObj
  distance : Option ℝ

/-- The shape of the OSRM response as `doRoute` (v6) consumes it.  `httpErr`
is `!resp.ok`, `badJson` is a body that `resp.json()` rejects; `ok routes`
is a parsed body whose `routes` field is `routes` (a missing `routes` field
behaves like `ok []`: both throw inside the `try`). -/
inductive RouteResp where
  | httpErr
  | badJson
  | ok (routes : List RouteObj)

/-- The observable outcome of one `doRoute` run (v6, lines 590–643). -/
structure DoRouteOut where
  /-- The final `route-msg` text. -/
  msg : Msg
  /-- Nominatim requests issued by the two `geocodeFirst` awaits. -/
  geocodeNetCalls : ℕ
  /-- OSRM requests issued (0 or 1). -/
  routeNetCalls : ℕ
  /-- The polyline and total-km pair drawn onto `routeLayer`, if any. -/
  rendered : Option (List (ℝ × ℝ) × ℝ)
  /-- The proximity markers drawn onto `nearLayer`. -/
  nearRendered : List EvPoint
  /-- `true` when the run dies on an uncaught exception
  (`geo` undefined past the `try`/`catch`). -/
  crashed : Bool
  /-- The suggestion cache after the run. -/
  cache : GeoCache

/-- `doRoute` of v6, lines 590–643, against a Nominatim oracle `net`, an OSRM
reply `routeResp` and the charger array `pts`.  Faithful control flow: the
empty-input guard precedes every network access; geocoding is origin first,
then destination, threading the cache; the `try`/`catch` around the OSRM
fetch turns `httpErr`, `badJson` and `ok []` into the `routeUnavailable`
message and returns before touching any layer; past the `catch`, a route
whose `geometry` is missing is dereferenced unguarded (`geo.coordinates`),
which dies uncaught with the message still reading `'Finding route...'`. -/
noncomputable def doRoute (net : String → Option (List Raw)) (routeResp : RouteResp)
    (cache : GeoCache) (pts : List EvPoint) (originVal destVal : String) : DoRouteOut :=
  let originTxt := jsTrim originVal
  let destTxt := jsTrim destVal
  if originTxt = "" ∨ destTxt = "" then
    ⟨.inputIncomplete, 0, 0, none, [], false, cache⟩
  else
    let g1 := geocodeFirst net cache originTxt "o"
    let g2 := geocodeFirst net g1.2.1 destTxt "d"
    let calls := g1.2.2 + g2.2.2
    let cache2 := g2.2.1
    match g1.1, g2.1 with
    | none, _ => ⟨.notFound, calls, 0, none, [], false, cache2⟩
    | some _, none => ⟨.notFound, calls, 0, none, [], false, cache2⟩
    | some _, some _ =>
      match routeResp with
      | .httpErr => ⟨.routeUnavailable, calls, 1, none, [], false, cache2⟩
      | .badJson => ⟨.routeUnavailable, calls, 1, none, [], false, cache2⟩
      | .ok [] => ⟨.routeUnavailable, calls, 1, none, [], false, cache2⟩
      | .ok (route :: _) =>
        let totalKm := match route.distance with
          | some dist => dist / 1000.0
          | none => 0
        match route.geometry with
        | none => ⟨.findingRoute, calls, 1, none, [], true, cache2⟩
        | some geo =>
          ⟨.found totalKm, calls, 1, some (geo.coordinates, totalKm),
            nearPts pts geo.coordinates ROUTE_PROXIMITY_KM, false, cache2⟩

/-- The page state touched by the route planner script of v6: the three
render layers and the message area, plus the pieces the `btn-clear` handler
leaves alone (the suggestion cache, the loaded charger array, and the two
input fields). -/
structure AppState where
  routeLayer : List (List (ℝ × ℝ) × ℝ)
  nearLayer : List EvPoint
  nearHeat : Option (List (ℝ × ℝ))
  routeMsg : Msg
  geoCache : GeoCache
  evPoints : List EvPoint
  originInput : String
  destInput : String

/-- The `btn-clear` click handler of v6, lines 646–652:
`routeLayer.clearLayers(); nearLayer.clearLayers();` remove the heat layer,
and blank the message text. -/
def clearHandler (s : AppState) : AppState :=
  { s with routeLayer := [], nearLayer := [], nearHeat := none, routeMsg := .empty }

end V6

namespace V7

/-- The two terminal `routeMsg` texts of v7's `findRoute`. -/
inductive Msg7 where
  /-- `"Error finding route."` (the catch-all `catch` branch). -/
  | errorFindingRoute
  /-- `` `Found route.<br>…Total route length: N km` ``. -/
  | found (km : ℝ)

/-- `gapSegKm` — the per-segment distance of the v7 gap scan (line 241):
`111 * √((lat2-lat1)² + ((lon2-lon1)·cos((lat1+lat2)·π/360))²)` between
consecutive `[lat, lon]` vertices `p` and `q`. -/
noncomputable def gapSegKm (p q : ℝ × ℝ) : ℝ :=
  111 * Real.sqrt ((q.1 - p.1) ^ 2 + ((q.2 - p.2) * Real.cos ((p.1 + q.1) * π / 360)) ^ 2)

/-- The `maxGap` loop of v7's `findRoute`, lines 237–244: walk consecutive
vertex pairs; only when a segment distance exceeds the threshold is `maxGap`
updated with it. -/
noncomputable def maxGapScan (coords : List (ℝ × ℝ)) (thr : ℝ) : ℝ :=
  (coords.zip coords.tail).foldl
    (fun maxGap pq =>
      if gapSegKm pq.1 pq.2 > thr then max maxGap (gapSegKm pq.1 pq.2) else maxGap)
    0

/-- The quantity the spec claims `maxGapKm` to be: the maximum
single-segment distance over all consecutive vertex pairs. -/
noncomputable def segMax (coords : List (ℝ × ℝ)) : ℝ :=
  (coords.zip coords.tail).foldl (fun m pq => max m (gapSegKm pq.1 pq.2)) 0

/-- The observable outcome of one v7 `findRoute` run. -/
structure FindRouteOut where
  msg : Msg7
  /-- Network requests issued (two Nominatim geocodes plus the OSRM fetch). -/
  netCalls : ℕ
  /-- The polyline drawn onto `window.map`, if the run got that far. -/
  rendered : Option (List (ℝ × ℝ))
  /-- The `maxGap` value of the gap scan (0 when the run failed earlier). -/
  maxGap : ℝ
  /-- Whether the red charger-gap warning was appended to the message. -/
  gapWarned : Bool

/-- `findRoute` of v7, lines 211–251.  There is no empty-input guard: the
origin is geocoded first (with `", Australia"` appended), then the
destination, then the OSRM route is fetched; `geoNet q = none` models a
failed fetch, `geoNet q = some []` the `j.length === 0` throw; any OSRM
failure (transport, shape, empty `routes`) is `routeNet = none`.  Every
failure lands in the single `catch`, whose message is
`"Error finding route."`. -/
noncomputable def findRoute (geoNet : String → Option (List (ℝ × ℝ × String)))
    (routeNet : Option (List (ℝ × ℝ) × ℝ)) (origin destination : String) : FindRouteOut :=
  match geoNet (origin ++ ", Australia") with
  | none => ⟨.errorFindingRoute, 1, none, 0, false⟩
  | some [] => ⟨.errorFindingRoute, 1, none, 0, false⟩
  | some (_ :: _) =>
    match geoNet (destination ++ ", Australia") with
    | none => ⟨.errorFindingRoute, 2, none, 0, false⟩
    | some [] => ⟨.errorFindingRoute, 2, none, 0, false⟩
    | some (_ :: _) =>
      match routeNet with
      | none => ⟨.errorFindingRoute, 3, none, 0, false⟩
      | some (geoCoords, dist) =>
        let coords := geoCoords.map fun c => (c.2, c.1)
        let km := dist / 1000.0
        let mg := maxGapScan coords CHARGER_GAP_KM
        ⟨.found km, 3, some coords, mg, decide (mg > CHARGER_GAP_KM)⟩

end V7

namespace Patch

/-- The label-cleaning step of the patched `nominatimSuggest` fragment:
split `display_name` on commas, trim each part, drop parts matching
`/Australia/i` (case-insensitive substring) or `/^\d{4}$/` (a bare 4-digit
postcode), and join the first three surviving parts with `", "`. -/
def cleanLabel (s : String) : String :=
  let parts := ((splitCommaAux s.data []).map (String.mk)).map jsTrim
  let filtered := parts.filter fun p =>
    !(decide ("australia".toList <:+: (p.toList.map Char.toLower))) &&
    !(p.length == 4 && p.toList.all Char.isDigit)
  String.intercalate ", " (filtered.take 3)

/-- The de-duplication loop of the patched fragment (lines 24–32): walk the
candidates in order, keeping an item exactly when its label has not been seen
yet. -/
def dedupAux (seen : List String) : List Candidate → List Candidate
  | [] => []
  | it :: rest =>
    if it.label ∈ seen then dedupAux seen rest
    else it :: dedupAux (it.label :: seen) rest

/-- `nominatimSuggest` of the patched fragment: as the v6 version, but the
mapped candidates get cleaned labels and are de-duplicated by label (first
occurrence kept) before being inserted into the cache and returned. -/
def nominatimSuggest (net : String → Option (List Raw)) (cache : GeoCache)
    (q which : String) : SuggestOut :=
  if q.length < 3 then ⟨cache, [], 0⟩
  else
    let key := which ++ "|" ++ jsTrim q
    match cache.lookup key with
    | some items => ⟨cache, items, 0⟩
    | none =>
      match net q with
      | some data =>
        let items := data.map fun d => ⟨cleanLabel d.display_name, d.lat, d.lon⟩
        let unique := dedupAux [] items
        ⟨(key, unique) :: cache, unique, 1⟩
      | none => ⟨cache, [], 1⟩

end Patch

namespace Sessions

/-- The rendering-relevant state of the v6 route planner across several
`doRoute` invocations: how many sessions (`Find Route` clicks) have started,
and whose result currently sits on the map surface (`routeLayer`,
`nearLayer`, heat layer and message, identified by session number). -/
structure SessState where
  clicks : ℕ
  surface : Option ℕ
  deriving DecidableEq

/-- Event-loop events: a `Find Route` click starting session
`clicks` (sessions are numbered in click order), or the route fetch of
session `i` resolving, which resumes the rest of `doRoute`. -/
inductive Ev where
  | click
  | resolve (i : ℕ)
  deriving DecidableEq

/-- One event-loop step.  A click allocates the next session number — the
source allocates nothing else: `doRoute` has no `requestToken`.  A
resolution of a started session runs the continuation after the OSRM
`await`, which unconditionally clears the layers and renders that session's
polyline, markers and message (v6 lines 618–642); there is no token
comparison that could discard it. -/
def step (s : SessState) : Ev → SessState
  | .click => { s with clicks := s.clicks + 1 }
  | .resolve i => if i < s.clicks then { s with surface := some i } else s

/-- Run a whole event trace. -/
def run (s : SessState) : List Ev → SessState :=
  List.foldl step s

/-- The page before any click. -/
def init : SessState := ⟨0, none⟩

end Sessions

/-! ## Generic list lemmas used by the claim proofs -/

lemma foldl_max_nonneg (l : List ℝ) (a : ℝ) (ha : 0 ≤ a) : 0 ≤ l.foldl max a := by
  induction l generalizing a with
  | nil => exact ha
  | cons d ds ih =>
    rw [List.foldl_cons]
    exact ih (max a d) (le_trans ha (le_max_left _ _))

lemma foldl_max_hom (l : List ℝ) :
    ∀ a : ℝ, 0 ≤ a → (∀ d ∈ l, 0 ≤ d) → l.foldl max a = max a (l.foldl max 0) := by
  induction l with
  | nil =>
    intro a ha _
    simp only [List.foldl_nil]
    rw [max_eq_left ha]
  | cons d ds ih =>
    intro a ha hl
    have hd : (0 : ℝ) ≤ d := hl d (List.mem_cons_self _ _)
    have hds : ∀ x ∈ ds, (0 : ℝ) ≤ x := fun x hx => hl x (List.mem_cons_of_mem _ hx)
    simp only [List.foldl_cons]
    rw [ih (max a d) (le_trans ha (le_max_left _ _)) hds, ih (max 0 d) (le_max_left _ _) hds,
      max_eq_right hd, max_assoc]

lemma foldl_gapFold_nonneg (thr : ℝ) (l : List ℝ) (a : ℝ) (ha : 0 ≤ a) :
    0 ≤ l.foldl (fun m x => if x > thr then max m x else m) a := by
  induction l generalizing a with
  | nil => exact ha
  | cons d ds ih =>
    simp only [List.foldl_cons]
    by_cases hd : d > thr
    · simp only [if_pos hd]
      exact ih (max a d) (le_trans ha (le_max_left _ _))
    · simp only [if_neg hd]
      exact ih a ha

lemma foldl_gapFold_hom (thr : ℝ) (hthr : 0 ≤ thr) (l : List ℝ) (a : ℝ) (ha : 0 ≤ a) :
    l.foldl (fun m x => if x > thr then max m x else m) a =
      max a (l.foldl (fun m x => if x > thr then max m x else m) 0) := by
  induction l generalizing a with
  | nil =>
    simp only [List.foldl_nil]
    rw [max_eq_left ha]
  | cons d ds ih =>
    simp only [List.foldl_cons]
    by_cases hd : d > thr
    · simp only [if_pos hd]
      rw [ih (max a d) (le_trans ha (le_max_left _ _)), ih (max 0 d) (le_max_left _ _),
        max_eq_right (le_of_lt (lt_of_le_of_lt hthr hd)), max_assoc]
    · simp only [if_neg hd]
      exact ih a ha

lemma gapFold_eq (thr : ℝ) (hthr : 0 ≤ thr) (l : List ℝ) (hl : ∀ d ∈ l, 0 ≤ d) :
    l.foldl (fun m x => if x > thr then max m x else m) 0 =
      if l.foldl max 0 > thr then l.foldl max 0 else 0 := by
  induction l with
  | nil =>
    simp only [List.foldl_nil]
    rw [if_neg (by simpa using not_lt.mpr hthr)]
  | cons d ds ih =>
    have hd : (0 : ℝ) ≤ d := hl d (List.mem_cons_self _ _)
    have hds : ∀ x ∈ ds, (0 : ℝ) ≤ x := fun x hx => hl x (List.mem_cons_of_mem _ hx)
    specialize ih hds
    simp only [List.foldl_cons]
    have h0d : max (0 : ℝ) d = d := max_eq_right hd
    rw [h0d, foldl_max_hom ds d hd hds]
    by_cases hdthr : d > thr
    · rw [if_pos hdthr, foldl_gapFold_hom thr hthr ds d hd, ih,
        if_pos (lt_of_lt_of_le hdthr (le_max_left d _))]
      by_cases hMthr : ds.foldl max 0 > thr
      · rw [if_pos hMthr]
      · rw [if_neg hMthr, max_eq_left hd,
          max_eq_left (le_trans (not_lt.mp hMthr) (le_of_lt hdthr))]
    · rw [if_neg hdthr, ih]
      by_cases hMthr : ds.foldl max 0 > thr
      · rw [if_pos hMthr, if_pos (lt_of_lt_of_le hMthr (le_max_right d _)),
          max_eq_right (le_trans (not_lt.mp hdthr) (le_of_lt hMthr))]
      · rw [if_neg hMthr,
          if_neg (not_lt.mpr (max_le (not_lt.mp hdthr) (not_lt.mp hMthr)))]

/-! ## Claim C1 — latest-wins rendering -/

/-- C1 (counterexample): the claim that a route fetch resolving for a
superseded session is discarded unrendered is false.  Concrete trace: two
`Find Route` clicks create sessions 0 and 1; session 1's fetch resolves
first, then session 0's resolves — and session 0's (stale) result is
rendered to the surface, because `doRoute` carries no request token and its
continuation renders unconditionally. -/
theorem latestWins_counterexample :
    1 < (Sessions.run Sessions.init [.click, .click]).clicks ∧
    (Sessions.run Sessions.init
      [.click, .click, .resolve 1, .resolve 0]).surface = some 0 := by
  decide

/-- C1 (amended): the v6/v7 route controllers have no request token at all;
every route-fetch completion of a started session unconditionally clears the
layers and renders that session's result, so the surface always shows the
most recently *completed* fetch — last-completion-wins, not latest-wins, and
in particular a stale completion is rendered rather than discarded. -/
theorem sessionRendering_lastCompletionWins (s : Sessions.SessState)
    (es : List Sessions.Ev) (i : ℕ) (h : i < (Sessions.run s es).clicks) :
    (Sessions.run s (es ++ [Sessions.Ev.resolve i])).surface = some i := by
  unfold Sessions.run at h ⊢
  rw [List.foldl_append]
  simp only [List.foldl_cons, List.foldl_nil, Sessions.step]
  rw [if_pos h]

theorem sessionRendering_lastCompletionWins_witness :
    0 < (Sessions.run Sessions.init [.click, .click, .resolve 1]).clicks ∧
    (Sessions.run Sessions.init
      ([.click, .click, .resolve 1] ++ [Sessions.Ev.resolve 0])).surface = some 0 :=
  ⟨by decide,
    sessionRendering_lastCompletionWins Sessions.init [.click, .click, .resolve 1] 0
      (by decide)⟩

/-! ## Claim C6 — empty-input handling -/

/-- C6 (counterexample): in v7's `findRoute` there is no empty-input guard:
triggering it with an empty destination (here with every geocoder fetch
failing) still issues a network request and ends with the generic
`"Error finding route."` message, never an immediate incomplete-input
report with zero network calls. -/
theorem inputIncomplete_counterexample :
    (V7.findRoute (fun _ => none) none "Melbourne" "").netCalls = 1 ∧
    (V7.findRoute (fun _ => none) none "Melbourne" "").msg =
      V7.Msg7.errorFindingRoute := by
  exact ⟨rfl, rfl⟩

/-- C6 (amended): v6's `doRoute` behaves as claimed: when the trimmed origin
or destination text is empty it reports
`'Please enter both origin and destination.'` immediately, issues zero
geocoder and zero routing requests, and renders nothing (v7's `findRoute`
lacks this guard, see the counterexample). -/
theorem doRoute_inputIncomplete (net : String → Option (List Raw))
    (resp : V6.RouteResp) (cache : GeoCache) (pts : List EvPoint) (o d : String)
    (h : jsTrim o = "" ∨ jsTrim d = "") :
    V6.doRoute net resp cache pts o d =
      ⟨.inputIncomplete, 0, 0, none, [], false, cache⟩ := by
  unfold V6.doRoute
  rw [if_pos h]

theorem doRoute_inputIncomplete_witness :
    (jsTrim "" = "" ∨ jsTrim "Perth" = "") ∧
    V6.doRoute (fun _ => none) V6.RouteResp.httpErr [] [] "" "Perth" =
      ⟨.inputIncomplete, 0, 0, none, [], false, []⟩ :=
  ⟨Or.inl rfl,
    doRoute_inputIncomplete (fun _ => none) V6.RouteResp.httpErr [] [] "" "Perth"
      (Or.inl rfl)⟩

/-! ## Claim C4 — suggestion-cache invariants -/

/-- C4: the v6 suggestion cache is correct as claimed.  (i) Queries shorter
than 3 characters never reach the network and return the empty sequence,
leaving the cache untouched.  (ii) The cache is append-only: every existing
binding survives any `nominatimSuggest` call.  (iii) Once the key of a
`(direction, text)` pair is populated, a repeat call performs zero network
requests and returns exactly the stored candidate sequence, with the cache
unchanged — regardless of how the network (`net'`) would now behave. -/
theorem suggestionCache_invariants (net net' : String → Option (List Raw))
    (cache : GeoCache) (q which : String) :
    (q.length < 3 → V6.nominatimSuggest net cache q which = ⟨cache, [], 0⟩) ∧
    (∀ k v, cache.lookup k = some v →
      (V6.nominatimSuggest net cache q which).cache.lookup k = some v) ∧
    (3 ≤ q.length →
      (V6.nominatimSuggest net cache q which).cache.lookup
          (which ++ "|" ++ jsTrim q) ≠ none →
      V6.nominatimSuggest net' (V6.nominatimSuggest net cache q which).cache q which =
        ⟨(V6.nominatimSuggest net cache q which).cache,
         (V6.nominatimSuggest net cache q which).out, 0⟩) := by
  refine ⟨fun h => by simp [V6.nominatimSuggest, h], ?_, ?_⟩
  · intro k v hk
    by_cases hlen : q.length < 3
    · simpa [V6.nominatimSuggest, hlen] using hk
    · simp only [V6.nominatimSuggest, if_neg hlen]
      cases hl : cache.lookup (which ++ "|" ++ jsTrim q) with
      | some items => simpa using hk
      | none =>
        cases hn : net q with
        | some data =>
          simp only [List.lookup]
          cases hbe : k == which ++ "|" ++ jsTrim q with
          | true =>
            rw [eq_of_beq hbe, hl] at hk
            exact absurd hk (by simp)
          | false => simpa using hk
        | none => simpa using hk
  · intro hlen hpop
    have hcond : ¬ q.length < 3 := not_lt.mpr hlen
    simp only [V6.nominatimSuggest, if_neg hcond] at hpop ⊢
    cases hl : cache.lookup (which ++ "|" ++ jsTrim q) with
    | some items => simp [hl]
    | none =>
      cases hn : net q with
      | some data =>
        simp [hl, hn, List.lookup, beq_self_eq_true]
      | none =>
        simp only [hl, hn] at hpop
        exact absurd rfl hpop

theorem suggestionCache_invariants_witness :
    3 ≤ ("Melbourne" : String).length ∧
    (V6.nominatimSuggest (fun _ => some [⟨"X", 1, 2⟩]) [] "Melbourne" "o").cache.lookup
        ("o" ++ "|" ++ jsTrim "Melbourne") ≠ none ∧
    V6.nominatimSuggest (fun _ => none)
        (V6.nominatimSuggest (fun _ => some [⟨"X", 1, 2⟩]) [] "Melbourne" "o").cache
        "Melbourne" "o" =
      ⟨(V6.nominatimSuggest (fun _ => some [⟨"X", 1, 2⟩]) [] "Melbourne" "o").cache,
       (V6.nominatimSuggest (fun _ => some [⟨"X", 1, 2⟩]) [] "Melbourne" "o").out, 0⟩ := by
  have hpop : (V6.nominatimSuggest (fun _ => some [⟨"X", 1, 2⟩]) [] "Melbourne" "o").cache.lookup
      ("o" ++ "|" ++ jsTrim "Melbourne") = some [⟨"X", 1, 2⟩] := rfl
  refine ⟨by decide, by rw [hpop]; exact Option.some_ne_none _, ?_⟩
  exact (suggestionCache_invariants (fun _ => some [⟨"X", 1, 2⟩]) (fun _ => none)
    [] "Melbourne" "o").2.2 (by decide) (by rw [hpop]; exact Option.some_ne_none _)

/-! ## Claim C9 — failed suggestion fetches do not poison the cache -/

/-- C9: when the suggestion fetch fails (HTTP error or transport error,
`net q = none`), the v6 `nominatimSuggest` returns the empty sequence after
its single network attempt and leaves the cache exactly as it was — no entry
is inserted for the failed key.  Consequently a later identical lookup
misses the cache and retries the network (one fresh request), and if that
retry succeeds it returns the freshly fetched candidates, not the earlier
empty failure result. -/
theorem suggestFailure_cacheUnchanged (net net' : String → Option (List Raw))
    (cache : GeoCache) (q which : String) (data : List Raw)
    (hlen : 3 ≤ q.length)
    (hmiss : cache.lookup (which ++ "|" ++ jsTrim q) = none)
    (hfail : net q = none) :
    V6.nominatimSuggest net cache q which = ⟨cache, [], 1⟩ ∧
    (V6.nominatimSuggest net' cache q which).netCalls = 1 ∧
    (net' q = some data →
      (V6.nominatimSuggest net' cache q which).out =
        data.map fun r => ⟨r.display_name, r.lat, r.lon⟩) := by
  have hcond : ¬ q.length < 3 := not_lt.mpr hlen
  refine ⟨by simp [V6.nominatimSuggest, if_neg hcond, hmiss, hfail], ?_, ?_⟩
  · simp only [V6.nominatimSuggest, if_neg hcond, hmiss]
    cases hn : net' q <;> simp
  · intro hok
    simp [V6.nominatimSuggest, if_neg hcond, hmiss, hok]

theorem suggestFailure_cacheUnchanged_witness :
    3 ≤ ("Melbourne" : String).length ∧
    List.lookup ("o" ++ "|" ++ jsTrim "Melbourne") ([] : GeoCache) = none ∧
    ((fun _ : String => (none : Option (List Raw))) "Melbourne" = none) ∧
    V6.nominatimSuggest (fun _ => none) [] "Melbourne" "o" = ⟨[], [], 1⟩ ∧
    (V6.nominatimSuggest (fun _ => some [⟨"X", 1, 2⟩]) [] "Melbourne" "o").netCalls = 1 ∧
    ((fun _ : String => some [(⟨"X", 1, 2⟩ : Raw)]) "Melbourne" = some [⟨"X", 1, 2⟩] →
      (V6.nominatimSuggest (fun _ => some [⟨"X", 1, 2⟩]) [] "Melbourne" "o").out =
        [⟨"X", 1, 2⟩]) := by
  have h := suggestFailure_cacheUnchanged (fun _ => none) (fun _ => some [⟨"X", 1, 2⟩])
    [] "Melbourne" "o" [⟨"X", 1, 2⟩] (by decide) rfl rfl
  exact ⟨by decide, rfl, rfl, h.1, h.2.1, h.2.2⟩

/-! ## Claim C10 — the clear handler's frame -/

/-- C10: the v6 `btn-clear` handler removes exactly the rendered route
layer, the near-charger layer, the heat layer and the message text, and
touches nothing else: the suggestion cache, the loaded charger point set and
both input fields are unchanged — so `nominatimSuggest` behaves identically
(in particular, a previously cached query still costs zero network
requests) on the post-clear state. -/
theorem clearHandler_frame (s : V6.AppState) :
    (V6.clearHandler s).routeLayer = [] ∧
    (V6.clearHandler s).nearLayer = [] ∧
    (V6.clearHandler s).nearHeat = none ∧
    (V6.clearHandler s).routeMsg = V6.Msg.empty ∧
    (V6.clearHandler s).geoCache = s.geoCache ∧
    (V6.clearHandler s).evPoints = s.evPoints ∧
    (V6.clearHandler s).originInput = s.originInput ∧
    (V6.clearHandler s).destInput = s.destInput ∧
    (∀ net q which,
      V6.nominatimSuggest net (V6.clearHandler s).geoCache q which =
        V6.nominatimSuggest net s.geoCache q which) :=
  ⟨rfl, rfl, rfl, rfl, rfl, rfl, rfl, rfl, fun _ _ _ => rfl⟩

/-! ## Claim C2 — the charger-gap detector -/

lemma gapSegKm_nonneg (p q : ℝ × ℝ) : 0 ≤ V7.gapSegKm p q :=
  mul_nonneg (by norm_num) (Real.sqrt_nonneg _)

/-- The v7 gap scan, rewritten as an `if` on the true segment maximum. -/
lemma maxGapScan_eq_ite (coords : List (ℝ × ℝ)) (thr : ℝ) (hthr : 0 ≤ thr) :
    V7.maxGapScan coords thr =
      if V7.segMax coords > thr then V7.segMax coords else 0 := by
  have hnn : ∀ d ∈ (coords.zip coords.tail).map (fun pq => V7.gapSegKm pq.1 pq.2),
      (0 : ℝ) ≤ d := by
    intro d hd
    rcases List.mem_map.mp hd with ⟨pq, _, rfl⟩
    exact gapSegKm_nonneg _ _
  have h1 : V7.maxGapScan coords thr =
      ((coords.zip coords.tail).map (fun pq => V7.gapSegKm pq.1 pq.2)).foldl
        (fun m x => if x > thr then max m x else m) 0 := by
    unfold V7.maxGapScan
    rw [List.foldl_map]
  have h2 : V7.segMax coords =
      ((coords.zip coords.tail).map (fun pq => V7.gapSegKm pq.1 pq.2)).foldl max 0 := by
    unfold V7.segMax
    rw [List.foldl_map]
  rw [h1, h2, gapFold_eq thr hthr _ hnn]

/-- C2 (counterexample): `maxGapKm` is *not* the maximum segment distance.
For the 2-vertex polyline `[(0,0), (0.5,0)]` the (unique) consecutive-pair
distance is `111·√(0.5²) = 55.5 km`, yet the scan reports `maxGap = 0`,
because the loop only records distances that already exceed
`CHARGER_GAP_KM = 300`. -/
theorem gapDetector_counterexample :
    2 ≤ ([((0 : ℝ), (0 : ℝ)), ((1 / 2 : ℝ), (0 : ℝ))] : List (ℝ × ℝ)).length ∧
    V7.segMax [((0 : ℝ), (0 : ℝ)), ((1 / 2 : ℝ), (0 : ℝ))] = 111 / 2 ∧
    V7.maxGapScan [((0 : ℝ), (0 : ℝ)), ((1 / 2 : ℝ), (0 : ℝ))] CHARGER_GAP_KM = 0 ∧
    V7.maxGapScan [((0 : ℝ), (0 : ℝ)), ((1 / 2 : ℝ), (0 : ℝ))] CHARGER_GAP_KM ≠
      V7.segMax [((0 : ℝ), (0 : ℝ)), ((1 / 2 : ℝ), (0 : ℝ))] := by
  have hseg : V7.gapSegKm ((0 : ℝ), (0 : ℝ)) ((1 / 2 : ℝ), (0 : ℝ)) = 111 / 2 := by
    unfold V7.gapSegKm
    have h1 : ((1 / 2 : ℝ) - 0) ^ 2 + (((0 : ℝ) - 0) * Real.cos ((0 + 1 / 2) * π / 360)) ^ 2 =
        (1 / 2 : ℝ) ^ 2 := by ring
    rw [h1, Real.sqrt_sq (by norm_num : (0 : ℝ) ≤ 1 / 2)]
    norm_num
  have hzip : ([((0 : ℝ), (0 : ℝ)), ((1 / 2 : ℝ), (0 : ℝ))] : List (ℝ × ℝ)).zip
      ([((0 : ℝ), (0 : ℝ)), ((1 / 2 : ℝ), (0 : ℝ))] : List (ℝ × ℝ)).tail =
      [(((0 : ℝ), (0 : ℝ)), ((1 / 2 : ℝ), (0 : ℝ)))] := rfl
  have hsm : V7.segMax [((0 : ℝ), (0 : ℝ)), ((1 / 2 : ℝ), (0 : ℝ))] = 111 / 2 := by
    unfold V7.segMax
    rw [hzip]
    simp only [List.foldl_cons, List.foldl_nil, hseg]
    rw [max_eq_right (by norm_num : (0 : ℝ) ≤ 111 / 2)]
  have hmg : V7.maxGapScan [((0 : ℝ), (0 : ℝ)), ((1 / 2 : ℝ), (0 : ℝ))] CHARGER_GAP_KM = 0 := by
    unfold V7.maxGapScan
    rw [hzip]
    simp only [List.foldl_cons, List.foldl_nil, hseg]
    rw [if_neg (by norm_num [CHARGER_GAP_KM])]
  refine ⟨by norm_num, hsm, hmg, ?_⟩
  rw [hsm, hmg]
  norm_num

/-- C2 (amended): for every polyline and every nonnegative threshold, the v7
gap scan's `maxGap` equals the maximum latitude-corrected planar segment
distance over consecutive vertex pairs *when that maximum exceeds the
threshold*, and is `0` otherwise; the warning condition `maxGap > threshold`
is nevertheless exactly "the maximum segment distance exceeds
`CHARGER_GAP_KM`" as the claim states. -/
theorem gapDetector_amended (coords : List (ℝ × ℝ)) (thr : ℝ)
    (hthr : 0 ≤ thr) (hlen : 2 ≤ coords.length) :
    (V7.segMax coords > thr → V7.maxGapScan coords thr = V7.segMax coords) ∧
    (V7.segMax coords ≤ thr → V7.maxGapScan coords thr = 0) ∧
    (V7.maxGapScan coords thr > thr ↔ V7.segMax coords > thr) := by
  have hscan := maxGapScan_eq_ite coords thr hthr
  refine ⟨fun h => by rw [hscan, if_pos h], fun h => by rw [hscan, if_neg (not_lt.mpr h)], ?_⟩
  constructor
  · intro h
    by_cases hs : V7.segMax coords > thr
    · exact hs
    · rw [hscan, if_neg hs] at h
      exact absurd h (not_lt.mpr hthr)
  · intro h
    rw [hscan, if_pos h]
    exact h

theorem gapDetector_amended_witness :
    ((0 : ℝ) ≤ CHARGER_GAP_KM ∧
      2 ≤ ([((0 : ℝ), (0 : ℝ)), ((3 : ℝ), (0 : ℝ))] : List (ℝ × ℝ)).length) ∧
    (V7.maxGapScan [((0 : ℝ), (0 : ℝ)), ((3 : ℝ), (0 : ℝ))] CHARGER_GAP_KM > CHARGER_GAP_KM ↔
      V7.segMax [((0 : ℝ), (0 : ℝ)), ((3 : ℝ), (0 : ℝ))] > CHARGER_GAP_KM) :=
  ⟨⟨by norm_num [CHARGER_GAP_KM], by norm_num⟩,
    (gapDetector_amended [((0 : ℝ), (0 : ℝ)), ((3 : ℝ), (0 : ℝ))] CHARGER_GAP_KM
      (by norm_num [CHARGER_GAP_KM]) (by norm_num)).2.2⟩

/-! ## Claim C5 — de-duplication of suggestion candidates -/

lemma dedupAux_sublist (seen : List String) (l : List Candidate) :
    (Patch.dedupAux seen l).Sublist l := by
  induction l generalizing seen with
  | nil => simp [Patch.dedupAux]
  | cons it rest ih =>
    unfold Patch.dedupAux
    by_cases h : it.label ∈ seen
    · rw [if_pos h]
      exact (ih seen).cons _
    · rw [if_neg h]
      exact (ih _).cons₂ _

lemma dedupAux_not_seen (seen : List String) (l : List Candidate) :
    ∀ x ∈ Patch.dedupAux seen l, x.label ∉ seen := by
  induction l generalizing seen with
  | nil => simp [Patch.dedupAux]
  | cons it rest ih =>
    unfold Patch.dedupAux
    by_cases h : it.label ∈ seen
    · rw [if_pos h]
      exact ih seen
    · rw [if_neg h]
      intro x hx
      rcases List.mem_cons.mp hx with rfl | hx
      · exact h
      · intro hmem
        exact ih (it.label :: seen) x hx (List.mem_cons_of_mem _ hmem)

lemma dedupAux_nodup (seen : List String) (l : List Candidate) :
    ((Patch.dedupAux seen l).map Candidate.label).Nodup := by
  induction l generalizing seen with
  | nil => simp [Patch.dedupAux]
  | cons it rest ih =>
    unfold Patch.dedupAux
    by_cases h : it.label ∈ seen
    · rw [if_pos h]
      exact ih seen
    · rw [if_neg h]
      rw [List.map_cons, List.nodup_cons]
      refine ⟨?_, ih (it.label :: seen)⟩
      intro hmem
      rcases List.mem_map.mp hmem with ⟨x, hx, hlab⟩
      exact dedupAux_not_seen _ _ x hx (hlab ▸ List.mem_cons_self _ _)

lemma dedupAux_find (seen : List String) (l : List Candidate) :
    ∀ x ∈ Patch.dedupAux seen l, l.find? (fun it => it.label == x.label) = some x := by
  induction l generalizing seen with
  | nil => simp [Patch.dedupAux]
  | cons it rest ih =>
    unfold Patch.dedupAux
    by_cases h : it.label ∈ seen
    · rw [if_pos h]
      intro x hx
      have hne : x.label ≠ it.label := by
        intro he
        exact dedupAux_not_seen seen rest x hx (he ▸ h)
      rw [List.find?_cons]
      rw [show (it.label == x.label) = false from beq_eq_false_iff_ne.mpr (fun he => hne he.symm)]
      exact ih seen x hx
    · rw [if_neg h]
      intro x hx
      rcases List.mem_cons.mp hx with rfl | hx
      · rw [List.find?_cons]
        rw [show (x.label == x.label) = true from beq_self_eq_true _]
      · have hne : x.label ≠ it.label := by
          intro he
          exact dedupAux_not_seen (it.label :: seen) rest x hx (he ▸ List.mem_cons_self _ _)
        rw [List.find?_cons]
        rw [show (it.label == x.label) = false from beq_eq_false_iff_ne.mpr
          (fun he => hne he.symm)]
        exact ih (it.label :: seen) x hx

lemma dedupAux_covers (seen : List String) (l : List Candidate) :
    ∀ it ∈ l, it.label ∈ seen ∨ ∃ x ∈ Patch.dedupAux seen l, x.label = it.label := by
  induction l generalizing seen with
  | nil => simp
  | cons hd rest ih =>
    intro it hit
    unfold Patch.dedupAux
    by_cases h : hd.label ∈ seen
    · rw [if_pos h]
      rcases List.mem_cons.mp hit with rfl | hit
      · exact Or.inl h
      · exact ih seen it hit
    · rw [if_neg h]
      rcases List.mem_cons.mp hit with rfl | hit
      · exact Or.inr ⟨it, List.mem_cons_self _ _, rfl⟩
      · rcases ih (hd.label :: seen) it hit with hseen | ⟨x, hx, hlab⟩
        · rcases List.mem_cons.mp hseen with he | hseen
          · exact Or.inr ⟨hd, List.mem_cons_self _ _, he.symm⟩
          · exact Or.inl hseen
        · exact Or.inr ⟨x, List.mem_cons_of_mem _ hx, hlab⟩

/-- C5 (counterexample): the deduplication claim fails at its cited v6 site.
The `nominatimSuggest` of `build_ev_atlas_v6` — the version the suggestion
input handlers actually call — maps the geocoder response and caches and
returns that raw list with no label deduplication: given candidates with
labels `[A, B, A, C]`, the suggestion output labels are `[A, B, A, C]`, not
`[A, B, C]`, and the undeduplicated sequence is what is inserted into the
cache. -/
theorem suggestDedup_counterexample :
    (V6.nominatimSuggest
        (fun _ => some [⟨"A", 1, 1⟩, ⟨"B", 2, 2⟩, ⟨"A", 3, 3⟩, ⟨"C", 4, 4⟩])
        [] "Carlton" "o").out.map Candidate.label = ["A", "B", "A", "C"] ∧
    (["A", "B", "A", "C"] : List String) ≠ ["A", "B", "C"] ∧
    (V6.nominatimSuggest
        (fun _ => some [⟨"A", 1, 1⟩, ⟨"B", 2, 2⟩, ⟨"A", 3, 3⟩, ⟨"C", 4, 4⟩])
        [] "Carlton" "o").cache.lookup ("o" ++ "|" ++ jsTrim "Carlton") =
      some (V6.nominatimSuggest
        (fun _ => some [⟨"A", 1, 1⟩, ⟨"B", 2, 2⟩, ⟨"A", 3, 3⟩, ⟨"C", 4, 4⟩])
        [] "Carlton" "o").out :=
  ⟨rfl, by decide, rfl⟩

/-- C5 (amended): on a cache miss with a successful fetch, v6's
`nominatimSuggest` inserts into the cache and returns the raw mapped
candidate list with *no* label deduplication, while the patched
`nominatimSuggest` fragment returns exactly the label-deduplicated list and
inserts that very list into the cache before returning it.  The fragment's
deduplication keeps the first occurrence and preserves order: its output is
a sublist of the mapped candidates (order preserved), its labels are
pairwise distinct, every output element is the *first* input candidate
carrying its label (`find?`), and every input candidate's label is
represented in the output. -/
theorem suggestDedup_amended (net : String → Option (List Raw)) (cache : GeoCache)
    (q which : String) (data : List Raw)
    (hlen : 3 ≤ q.length)
    (hmiss : cache.lookup (which ++ "|" ++ jsTrim q) = none)
    (hnet : net q = some data) :
    (V6.nominatimSuggest net cache q which).out =
      (data.map fun r => ⟨r.display_name, r.lat, r.lon⟩) ∧
    (V6.nominatimSuggest net cache q which).cache.lookup (which ++ "|" ++ jsTrim q) =
      some (V6.nominatimSuggest net cache q which).out ∧
    (Patch.nominatimSuggest net cache q which).out =
      Patch.dedupAux []
        (data.map fun r => ⟨Patch.cleanLabel r.display_name, r.lat, r.lon⟩) ∧
    (Patch.nominatimSuggest net cache q which).cache.lookup (which ++ "|" ++ jsTrim q) =
      some (Patch.nominatimSuggest net cache q which).out ∧
    ((Patch.nominatimSuggest net cache q which).out).Sublist
      (data.map fun r => ⟨Patch.cleanLabel r.display_name, r.lat, r.lon⟩) ∧
    (((Patch.nominatimSuggest net cache q which).out).map Candidate.label).Nodup ∧
    (∀ x ∈ (Patch.nominatimSuggest net cache q which).out,
      (data.map fun r => (⟨Patch.cleanLabel r.display_name, r.lat, r.lon⟩ : Candidate)).find?
        (fun it => it.label == x.label) = some x) ∧
    (∀ it ∈ data.map fun r => (⟨Patch.cleanLabel r.display_name, r.lat, r.lon⟩ : Candidate),
      ∃ x ∈ (Patch.nominatimSuggest net cache q which).out, x.label = it.label) := by
  have hcond : ¬ q.length < 3 := not_lt.mpr hlen
  have hv6 : V6.nominatimSuggest net cache q which =
      ⟨(which ++ "|" ++ jsTrim q, data.map fun r => ⟨r.display_name, r.lat, r.lon⟩) :: cache,
        data.map fun r => ⟨r.display_name, r.lat, r.lon⟩, 1⟩ := by
    simp [V6.nominatimSuggest, if_neg hcond, hmiss, hnet]
  have hout : Patch.nominatimSuggest net cache q which =
      ⟨(which ++ "|" ++ jsTrim q,
          Patch.dedupAux []
            (data.map fun r => ⟨Patch.cleanLabel r.display_name, r.lat, r.lon⟩)) :: cache,
        Patch.dedupAux []
          (data.map fun r => ⟨Patch.cleanLabel r.display_name, r.lat, r.lon⟩), 1⟩ := by
    simp [Patch.nominatimSuggest, if_neg hcond, hmiss, hnet]
  rw [hv6, hout]
  refine ⟨rfl, ?_, rfl, ?_, dedupAux_sublist _ _, dedupAux_nodup _ _, dedupAux_find _ _, ?_⟩
  · simp [List.lookup, beq_self_eq_true]
  · simp [List.lookup, beq_self_eq_true]
  · intro it hit
    rcases dedupAux_covers [] _ it hit with hseen | hex
    · exact absurd hseen (List.not_mem_nil _)
    · exact hex

theorem suggestDedup_amended_witness :
    (3 ≤ ("Carlton" : String).length ∧
      List.lookup ("o" ++ "|" ++ jsTrim "Carlton") ([] : GeoCache) = none) ∧
    (V6.nominatimSuggest
        (fun _ => some [⟨"A", 1, 1⟩, ⟨"B", 2, 2⟩, ⟨"A", 3, 3⟩, ⟨"C", 4, 4⟩])
        [] "Carlton" "o").out =
      ([⟨"A", 1, 1⟩, ⟨"B", 2, 2⟩, ⟨"A", 3, 3⟩, ⟨"C", 4, 4⟩] : List Raw).map
        (fun r => ⟨r.display_name, r.lat, r.lon⟩) ∧
    (Patch.nominatimSuggest
        (fun _ => some [⟨"A", 1, 1⟩, ⟨"B", 2, 2⟩, ⟨"A", 3, 3⟩, ⟨"C", 4, 4⟩])
        [] "Carlton" "o").out.map Candidate.label = ["A", "B", "C"] ∧
    ((Patch.nominatimSuggest
        (fun _ => some [⟨"A", 1, 1⟩, ⟨"B", 2, 2⟩, ⟨"A", 3, 3⟩, ⟨"C", 4, 4⟩])
        [] "Carlton" "o").out.map Candidate.label).Nodup := by
  have h := suggestDedup_amended
    (fun _ => some [⟨"A", 1, 1⟩, ⟨"B", 2, 2⟩, ⟨"A", 3, 3⟩, ⟨"C", 4, 4⟩])
    [] "Carlton" "o" [⟨"A", 1, 1⟩, ⟨"B", 2, 2⟩, ⟨"A", 3, 3⟩, ⟨"C", 4, 4⟩]
    (by decide) rfl rfl
  exact ⟨⟨by decide, rfl⟩, h.1, rfl, h.2.2.2.2.2.1⟩

/-! ## Claim C3 — the proximity engine -/

/-- The `minDistKm` fold (with a generalized seed `b`): it never exceeds the
seed, it is a lower bound of every vertex distance, and it equals the seed
or is attained at some vertex. -/
lemma minDistFold_spec (lat lon : ℝ) (coords : List (ℝ × ℝ)) :
    ∀ b : EReal,
      (coords.foldl
          (fun best p =>
            if ((V6.haversineKm lat lon p.2 p.1 : ℝ) : EReal) < best then
              ((V6.haversineKm lat lon p.2 p.1 : ℝ) : EReal)
            else best) b ≤ b) ∧
      (∀ w ∈ coords,
        coords.foldl
          (fun best p =>
            if ((V6.haversineKm lat lon p.2 p.1 : ℝ) : EReal) < best then
              ((V6.haversineKm lat lon p.2 p.1 : ℝ) : EReal)
            else best) b ≤ ((V6.haversineKm lat lon w.2 w.1 : ℝ) : EReal)) ∧
      (coords.foldl
          (fun best p =>
            if ((V6.haversineKm lat lon p.2 p.1 : ℝ) : EReal) < best then
              ((V6.haversineKm lat lon p.2 p.1 : ℝ) : EReal)
            else best) b = b ∨
        ∃ v ∈ coords,
          coords.foldl
            (fun best p =>
              if ((V6.haversineKm lat lon p.2 p.1 : ℝ) : EReal) < best then
                ((V6.haversineKm lat lon p.2 p.1 : ℝ) : EReal)
              else best) b = ((V6.haversineKm lat lon v.2 v.1 : ℝ) : EReal)) := by
  induction coords with
  | nil => exact fun b => ⟨le_refl b, by simp, Or.inl rfl⟩
  | cons p rest ih =>
    intro b
    simp only [List.foldl_cons]
    by_cases h : ((V6.haversineKm lat lon p.2 p.1 : ℝ) : EReal) < b
    · rw [if_pos h]
      obtain ⟨h1, h2, h3⟩ := ih ((V6.haversineKm lat lon p.2 p.1 : ℝ) : EReal)
      refine ⟨le_trans h1 (le_of_lt h), ?_, ?_⟩
      · intro w hw
        rcases List.mem_cons.mp hw with rfl | hw
        · exact h1
        · exact h2 w hw
      · rcases h3 with h3 | ⟨v, hv, h3⟩
        · exact Or.inr ⟨p, List.mem_cons_self _ _, h3⟩
        · exact Or.inr ⟨v, List.mem_cons_of_mem _ hv, h3⟩
    · rw [if_neg h]
      obtain ⟨h1, h2, h3⟩ := ih b
      refine ⟨h1, ?_, ?_⟩
      · intro w hw
        rcases List.mem_cons.mp hw with rfl | hw
        · exact le_trans h1 (not_lt.mp h)
        · exact h2 w hw
      · rcases h3 with h3 | ⟨v, hv, h3⟩
        · exact Or.inl h3
        · exact Or.inr ⟨v, List.mem_cons_of_mem _ hv, h3⟩

lemma minDistKm_attained (lat lon : ℝ) (coords : List (ℝ × ℝ)) (hne : coords ≠ []) :
    ∃ v ∈ coords,
      V6.minDistKm lat lon coords = ((V6.haversineKm lat lon v.2 v.1 : ℝ) : EReal) ∧
      ∀ w ∈ coords, V6.haversineKm lat lon v.2 v.1 ≤ V6.haversineKm lat lon w.2 w.1 := by
  obtain ⟨h1, h2, h3⟩ := minDistFold_spec lat lon coords ⊤
  rcases h3 with h3 | ⟨v, hv, h3⟩
  · obtain ⟨w, hw⟩ := List.exists_mem_of_ne_nil coords hne
    have := h2 w hw
    rw [h3] at this
    exact absurd this (not_le.mpr (EReal.coe_lt_top _))
  · refine ⟨v, hv, h3, ?_⟩
    intro w hw
    have := h2 w hw
    rw [h3] at this
    exact EReal.coe_le_coe_iff.mp this

/-- C3: the v6 proximity engine is as claimed.  A charger point is included
exactly when the minimum haversine distance from it to the polyline's
vertices is at most the threshold (so a point at exactly the threshold is
included), the output preserves the input point order (it is a sublist of
the input), the minimum is attained at some vertex and bounds every
vertex distance from below, and a point whose minimum distance is the
threshold plus any positive `ε` is excluded. -/
theorem proximityEngine_spec (pts : List EvPoint) (coords : List (ℝ × ℝ))
    (prox : ℝ) (pt : EvPoint) :
    (pt ∈ V6.nearPts pts coords prox ↔
      pt ∈ pts ∧ V6.minDistKm pt.lat pt.lon coords ≤ ((prox : ℝ) : EReal)) ∧
    (V6.nearPts pts coords prox).Sublist pts ∧
    (coords ≠ [] → ∃ v ∈ coords,
      V6.minDistKm pt.lat pt.lon coords =
        ((V6.haversineKm pt.lat pt.lon v.2 v.1 : ℝ) : EReal) ∧
      ∀ w ∈ coords,
        V6.haversineKm pt.lat pt.lon v.2 v.1 ≤ V6.haversineKm pt.lat pt.lon w.2 w.1) ∧
    (pt ∈ pts → V6.minDistKm pt.lat pt.lon coords = ((prox : ℝ) : EReal) →
      pt ∈ V6.nearPts pts coords prox) ∧
    (∀ ε : ℝ, 0 < ε →
      V6.minDistKm pt.lat pt.lon coords = ((prox + ε : ℝ) : EReal) →
      pt ∉ V6.nearPts pts coords prox) := by
  have hmem : pt ∈ V6.nearPts pts coords prox ↔
      pt ∈ pts ∧ V6.minDistKm pt.lat pt.lon coords ≤ ((prox : ℝ) : EReal) := by
    unfold V6.nearPts
    rw [List.mem_filter]
    simp only [decide_eq_true_eq]
  refine ⟨hmem, List.filter_sublist _, minDistKm_attained _ _ coords, ?_, ?_⟩
  · intro hpt heq
    exact hmem.mpr ⟨hpt, le_of_eq heq⟩
  · intro ε hε heq hin
    have hle := (hmem.mp hin).2
    rw [heq] at hle
    have : prox + ε ≤ prox := EReal.coe_le_coe_iff.mp hle
    linarith

/-- A charger point with all-default collaborator fields, used to
instantiate the proximity theorem. -/
def samplePoint : EvPoint := ⟨0, 0, "", "", false, "", "", "", "", none⟩

theorem proximityEngine_spec_witness :
    (([((0 : ℝ), (0 : ℝ))] : List (ℝ × ℝ)) ≠ []) ∧
    (∃ v ∈ ([((0 : ℝ), (0 : ℝ))] : List (ℝ × ℝ)),
      V6.minDistKm samplePoint.lat samplePoint.lon [((0 : ℝ), (0 : ℝ))] =
        ((V6.haversineKm samplePoint.lat samplePoint.lon v.2 v.1 : ℝ) : EReal) ∧
      ∀ w ∈ ([((0 : ℝ), (0 : ℝ))] : List (ℝ × ℝ)),
        V6.haversineKm samplePoint.lat samplePoint.lon v.2 v.1 ≤
          V6.haversineKm samplePoint.lat samplePoint.lon w.2 w.1) :=
  ⟨List.cons_ne_nil _ _,
    (proximityEngine_spec [samplePoint] [((0 : ℝ), (0 : ℝ))] ROUTE_PROXIMITY_KM
      samplePoint).2.2.1 (List.cons_ne_nil _ _)⟩

/-! ## Claim C7 — `RouteUnavailable` handling -/

/-- C7 (counterexample): a parseable OSRM response whose (unique) route has
no `geometry` *is* "a response that cannot be parsed as the expected
geometry shape", yet v6's `doRoute` does not show the generic
`'Route unavailable. Try a nearby suburb or major city.'` message there: the
unguarded `geo.coordinates` dereference past the `try`/`catch` dies uncaught
and the message area still reads `'Finding route...'`.  (Both geocodes
succeed from a preloaded cache, so the run reaches the route stage.) -/
theorem routeUnavailable_counterexample :
    (V6.doRoute (fun _ => none) (V6.RouteResp.ok [⟨none, some 500000⟩])
        [("o|A", [⟨"A", 1, 2⟩]), ("d|B", [⟨"B", 3, 4⟩])] [] "A" "B").msg ≠
      V6.Msg.routeUnavailable ∧
    (V6.doRoute (fun _ => none) (V6.RouteResp.ok [⟨none, some 500000⟩])
        [("o|A", [⟨"A", 1, 2⟩]), ("d|B", [⟨"B", 3, 4⟩])] [] "A" "B").msg =
      V6.Msg.findingRoute ∧
    (V6.doRoute (fun _ => none) (V6.RouteResp.ok [⟨none, some 500000⟩])
        [("o|A", [⟨"A", 1, 2⟩]), ("d|B", [⟨"B", 3, 4⟩])] [] "A" "B").crashed = true := by
  have h : V6.doRoute (fun _ => none) (V6.RouteResp.ok [⟨none, some 500000⟩])
      [("o|A", [⟨"A", 1, 2⟩]), ("d|B", [⟨"B", 3, 4⟩])] [] "A" "B" =
      ⟨.findingRoute, 0, 1, none, [], true,
        [("o|A", [⟨"A", 1, 2⟩]), ("d|B", [⟨"B", 3, 4⟩])]⟩ := rfl
  rw [h]
  refine ⟨?_, rfl, rfl⟩
  intro hc
  cases hc

/-- C7 (amended): with nonempty inputs and both geocodes succeeding, v6's
`doRoute` shows the generic `'Route unavailable. Try a nearby suburb or
major city.'` message exactly when the OSRM fetch has an unsuccessful HTTP
status, a body that JSON parsing rejects, or zero routes — and in every such
case it renders no route (and does not crash).  A response with routes whose
first entry lacks the expected geometry shape is *not* part of this set: it
aborts uncaught without the generic message (see the counterexample). -/
theorem routeUnavailable_amended (net : String → Option (List Raw))
    (resp : V6.RouteResp) (cache : GeoCache) (pts : List EvPoint) (o d : String)
    (ho : jsTrim o ≠ "") (hd : jsTrim d ≠ "")
    (c1 : Candidate) (c2 : Candidate)
    (hg1 : (V6.geocodeFirst net cache (jsTrim o) "o").1 = some c1)
    (hg2 : (V6.geocodeFirst net (V6.geocodeFirst net cache (jsTrim o) "o").2.1
      (jsTrim d) "d").1 = some c2) :
    ((V6.doRoute net resp cache pts o d).msg = V6.Msg.routeUnavailable ↔
      resp = .httpErr ∨ resp = .badJson ∨ resp = .ok []) ∧
    ((V6.doRoute net resp cache pts o d).msg = V6.Msg.routeUnavailable →
      (V6.doRoute net resp cache pts o d).rendered = none ∧
      (V6.doRoute net resp cache pts o d).crashed = false) := by
  have hout : V6.doRoute net resp cache pts o d =
      match resp with
      | .httpErr => ⟨.routeUnavailable,
          (V6.geocodeFirst net cache (jsTrim o) "o").2.2 +
            (V6.geocodeFirst net (V6.geocodeFirst net cache (jsTrim o) "o").2.1
              (jsTrim d) "d").2.2, 1, none, [], false,
          (V6.geocodeFirst net (V6.geocodeFirst net cache (jsTrim o) "o").2.1
            (jsTrim d) "d").2.1⟩
      | .badJson => ⟨.routeUnavailable,
          (V6.geocodeFirst net cache (jsTrim o) "o").2.2 +
            (V6.geocodeFirst net (V6.geocodeFirst net cache (jsTrim o) "o").2.1
              (jsTrim d) "d").2.2, 1, none, [], false,
          (V6.geocodeFirst net (V6.geocodeFirst net cache (jsTrim o) "o").2.1
            (jsTrim d) "d").2.1⟩
      | .ok [] => ⟨.routeUnavailable,
          (V6.geocodeFirst net cache (jsTrim o) "o").2.2 +
            (V6.geocodeFirst net (V6.geocodeFirst net cache (jsTrim o) "o").2.1
              (jsTrim d) "d").2.2, 1, none, [], false,
          (V6.geocodeFirst net (V6.geocodeFirst net cache (jsTrim o) "o").2.1
            (jsTrim d) "d").2.1⟩
      | .ok (route :: _) =>
        match route.geometry with
        | none => ⟨.findingRoute,
            (V6.geocodeFirst net cache (jsTrim o) "o").2.2 +
              (V6.geocodeFirst net (V6.geocodeFirst net cache (jsTrim o) "o").2.1
                (jsTrim d) "d").2.2, 1, none, [], true,
            (V6.geocodeFirst net (V6.geocodeFirst net cache (jsTrim o) "o").2.1
              (jsTrim d) "d").2.1⟩
        | some geo =>
          ⟨.found (match route.distance with | some dist => dist / 1000.0 | none => 0),
            (V6.geocodeFirst net cache (jsTrim o) "o").2.2 +
              (V6.geocodeFirst net (V6.geocodeFirst net cache (jsTrim o) "o").2.1
                (jsTrim d) "d").2.2, 1,
            some (geo.coordinates,
              match route.distance with | some dist => dist / 1000.0 | none => 0),
            V6.nearPts pts geo.coordinates ROUTE_PROXIMITY_KM, false,
            (V6.geocodeFirst net (V6.geocodeFirst net cache (jsTrim o) "o").2.1
              (jsTrim d) "d").2.1⟩ := by
    simp only [V6.doRoute, if_neg (not_or.mpr ⟨ho, hd⟩), hg1, hg2]
  rw [hout]
  cases resp with
  | httpErr => exact ⟨by simp, fun _ => ⟨rfl, rfl⟩⟩
  | badJson => exact ⟨by simp, fun _ => ⟨rfl, rfl⟩⟩
  | ok routes =>
    cases routes with
    | nil => exact ⟨by simp, fun _ => ⟨rfl, rfl⟩⟩
    | cons route rest =>
      cases hgeo : route.geometry with
      | none =>
        refine ⟨⟨fun hmsg => ?_, fun hr => ?_⟩, fun hmsg => ?_⟩ <;>
          simp only [hgeo] at *
        · cases hmsg
        · rcases hr with hr | hr | hr <;> cases hr
        · cases hmsg
      | some geo =>
        refine ⟨⟨fun hmsg => ?_, fun hr => ?_⟩, fun hmsg => ?_⟩ <;>
          simp only [hgeo] at *
        · cases hmsg
        · rcases hr with hr | hr | hr <;> cases hr
        · cases hmsg

theorem routeUnavailable_amended_witness :
    (jsTrim "A" ≠ "" ∧ jsTrim "B" ≠ "" ∧
      (V6.geocodeFirst (fun _ => none)
        [("o|A", [⟨"A", 1, 2⟩]), ("d|B", [⟨"B", 3, 4⟩])] (jsTrim "A") "o").1 =
        some ⟨"A", 1, 2⟩ ∧
      (V6.geocodeFirst (fun _ => none)
        (V6.geocodeFirst (fun _ => none)
          [("o|A", [⟨"A", 1, 2⟩]), ("d|B", [⟨"B", 3, 4⟩])] (jsTrim "A") "o").2.1
        (jsTrim "B") "d").1 = some ⟨"B", 3, 4⟩) ∧
    ((V6.doRoute (fun _ => none) V6.RouteResp.httpErr
        [("o|A", [⟨"A", 1, 2⟩]), ("d|B", [⟨"B", 3, 4⟩])] [] "A" "B").msg =
        V6.Msg.routeUnavailable ↔
      V6.RouteResp.httpErr = .httpErr ∨ V6.RouteResp.httpErr = .badJson ∨
        V6.RouteResp.httpErr = .ok []) := by
  refine ⟨⟨by decide, by decide, rfl, rfl⟩, ?_⟩
  exact (routeUnavailable_amended (fun _ => none) V6.RouteResp.httpErr
    [("o|A", [⟨"A", 1, 2⟩]), ("d|B", [⟨"B", 3, 4⟩])] [] "A" "B"
    (by decide) (by decide) ⟨"A", 1, 2⟩ ⟨"B", 3, 4⟩ rfl rfl).1

/-! ## Claim C8 — the haversine distance

Interval bounds for `sin` and `cos` on `[0, 1]`, from the Maclaurin tail
bounds `Real.sin_bound` / `Real.cos_bound`, used to evaluate the
Sydney–Melbourne distance. -/

lemma cube_mono {lo x : ℝ} (h0 : 0 ≤ lo) (h1 : lo ≤ x) (hx1 : x ≤ 1) :
    lo - lo ^ 3 / 6 ≤ x - x ^ 3 / 6 := by
  have hxl : 0 ≤ x - lo := sub_nonneg.mpr h1
  have hx0 : 0 ≤ x := le_trans h0 h1
  have hxsq : x ^ 2 ≤ 1 := by nlinarith
  have hlosq : lo ^ 2 ≤ 1 := by nlinarith
  have hxlo : x * lo ≤ 1 := by nlinarith
  nlinarith [mul_nonneg hxl (sub_nonneg.mpr hxsq), mul_nonneg hxl (sub_nonneg.mpr hlosq),
    mul_nonneg hxl (sub_nonneg.mpr hxlo)]

lemma sin_interval {lo hi x : ℝ} (h0 : 0 ≤ lo) (h1 : lo ≤ x) (h2 : x ≤ hi) (h3 : hi ≤ 1) :
    lo - lo ^ 3 / 6 - hi ^ 4 * (5 / 96) ≤ Real.sin x ∧
      Real.sin x ≤ hi - hi ^ 3 / 6 + hi ^ 4 * (5 / 96) := by
  have hx0 : 0 ≤ x := le_trans h0 h1
  have hx1 : x ≤ 1 := le_trans h2 h3
  have hb := Real.sin_bound (x := x) (by rw [abs_of_nonneg hx0]; exact hx1)
  rw [abs_of_nonneg hx0] at hb
  have hb' := abs_le.mp hb
  have h4 : x ^ 4 ≤ hi ^ 4 := pow_le_pow_left₀ hx0 h2 4
  have hm1 : lo - lo ^ 3 / 6 ≤ x - x ^ 3 / 6 := cube_mono h0 h1 hx1
  have hm2 : x - x ^ 3 / 6 ≤ hi - hi ^ 3 / 6 := cube_mono hx0 h2 h3
  exact ⟨by nlinarith [hb'.1], by nlinarith [hb'.2]⟩

lemma cos_interval {lo hi x : ℝ} (h0 : 0 ≤ lo) (h1 : lo ≤ x) (h2 : x ≤ hi) (h3 : hi ≤ 1) :
    1 - hi ^ 2 / 2 - hi ^ 4 * (5 / 96) ≤ Real.cos x ∧
      Real.cos x ≤ 1 - lo ^ 2 / 2 + hi ^ 4 * (5 / 96) := by
  have hx0 : 0 ≤ x := le_trans h0 h1
  have hx1 : x ≤ 1 := le_trans h2 h3
  have hb := Real.cos_bound (x := x) (by rw [abs_of_nonneg hx0]; exact hx1)
  rw [abs_of_nonneg hx0] at hb
  have hb' := abs_le.mp hb
  have h4 : x ^ 4 ≤ hi ^ 4 := pow_le_pow_left₀ hx0 h2 4
  have hsq1 : lo ^ 2 ≤ x ^ 2 := pow_le_pow_left₀ h0 h1 2
  have hsq2 : x ^ 2 ≤ hi ^ 2 := pow_le_pow_left₀ hx0 h2 2
  exact ⟨by nlinarith [hb'.1], by nlinarith [hb'.2]⟩

lemma sq_bounds_of {s a b : ℝ} (ha : 0 ≤ a) (h1 : a ≤ s) (h2 : s ≤ b) :
    a ^ 2 ≤ s ^ 2 ∧ s ^ 2 ≤ b ^ 2 :=
  ⟨pow_le_pow_left₀ ha h1 2, pow_le_pow_left₀ (le_trans ha h1) h2 2⟩

lemma prod_bounds {u v a b c d : ℝ} (ha : 0 ≤ a) (hc : 0 ≤ c)
    (h1 : a ≤ u) (h2 : u ≤ b) (h3 : c ≤ v) (h4 : v ≤ d) :
    a * c ≤ u * v ∧ u * v ≤ b * d :=
  ⟨mul_le_mul h1 h3 hc (le_trans ha h1),
    mul_le_mul h2 h4 (le_trans hc h3) (le_trans (le_trans ha h1) h2)⟩

/-- Two-sided bounds for the haversine central-angle argument
`a = sin²(dLat/2) + cos(lat1)·cos(lat2)·sin²(dLon/2)` of the
Sydney–Melbourne pair, in the canonical positive-argument form. -/
lemma sydMelA_bounds :
    (0.0031147 : ℝ) ≤
      Real.sin (1.9724 * π / 180) ^ 2 +
        Real.cos (33.8688 * π / 180) * Real.cos (37.8136 * π / 180) *
          Real.sin (3.1231 * π / 180) ^ 2 ∧
    Real.sin (1.9724 * π / 180) ^ 2 +
        Real.cos (33.8688 * π / 180) * Real.cos (37.8136 * π / 180) *
          Real.sin (3.1231 * π / 180) ^ 2 ≤ (0.0031337 : ℝ) := by
  have hπlo : (3.141592 : ℝ) < π := Real.pi_gt_d6
  have hπhi : π < (3.141593 : ℝ) := Real.pi_lt_d6
  -- the four radian arguments, bracketed by rationals
  have hx1i : (0.0344248 : ℝ) ≤ 1.9724 * π / 180 ∧ (1.9724 * π / 180 : ℝ) ≤ 0.0344249 :=
    ⟨by linarith only [hπlo, hπhi], by linarith only [hπlo, hπhi]⟩
  have hx2i : (0.0545083 : ℝ) ≤ 3.1231 * π / 180 ∧ (3.1231 * π / 180 : ℝ) ≤ 0.0545084 :=
    ⟨by linarith only [hπlo, hπhi], by linarith only [hπlo, hπhi]⟩
  have hq1i : (0.2955609 : ℝ) ≤ 16.9344 * π / 180 ∧ (16.9344 * π / 180 : ℝ) ≤ 0.2955611 :=
    ⟨by linarith only [hπlo, hπhi], by linarith only [hπlo, hπhi]⟩
  have hq2i : (0.3299858 : ℝ) ≤ 18.9068 * π / 180 ∧ (18.9068 * π / 180 : ℝ) ≤ 0.3299860 :=
    ⟨by linarith only [hπlo, hπhi], by linarith only [hπlo, hπhi]⟩
  -- sin(dLat/2) and its square
  have hs1 := sin_interval (by norm_num) hx1i.1 hx1i.2 (by norm_num)
  have hs1lo : (0.0344179 : ℝ) ≤ Real.sin (1.9724 * π / 180) := by
    have hnum : (0.0344179 : ℝ) ≤
        0.0344248 - 0.0344248 ^ 3 / 6 - 0.0344249 ^ 4 * (5 / 96) := by norm_num
    linarith only [hnum, hs1.1]
  have hs1hi : Real.sin (1.9724 * π / 180) ≤ (0.0344182 : ℝ) := by
    have hnum : (0.0344249 : ℝ) - 0.0344249 ^ 3 / 6 + 0.0344249 ^ 4 * (5 / 96) ≤
        0.0344182 := by norm_num
    linarith only [hnum, hs1.2]
  have hs1sq := sq_bounds_of (by norm_num : (0 : ℝ) ≤ 0.0344179) hs1lo hs1hi
  -- sin(dLon/2) and its square
  have hs2 := sin_interval (by norm_num) hx2i.1 hx2i.2 (by norm_num)
  have hs2lo : (0.0544808 : ℝ) ≤ Real.sin (3.1231 * π / 180) := by
    have hnum : (0.0544808 : ℝ) ≤
        0.0545083 - 0.0545083 ^ 3 / 6 - 0.0545084 ^ 4 * (5 / 96) := by norm_num
    linarith only [hnum, hs2.1]
  have hs2hi : Real.sin (3.1231 * π / 180) ≤ (0.0544819 : ℝ) := by
    have hnum : (0.0545084 : ℝ) - 0.0545084 ^ 3 / 6 + 0.0545084 ^ 4 * (5 / 96) ≤
        0.0544819 := by norm_num
    linarith only [hnum, hs2.2]
  have hs2sq := sq_bounds_of (by norm_num : (0 : ℝ) ≤ 0.0544808) hs2lo hs2hi
  -- cos(lat1) via the half angle 16.9344°
  have hc1 := cos_interval (by norm_num) hq1i.1 hq1i.2 (by norm_num)
  have hc1lo : (0.9559243 : ℝ) ≤ Real.cos (16.9344 * π / 180) := by
    have hnum : (0.9559243 : ℝ) ≤
        1 - 0.2955611 ^ 2 / 2 - 0.2955611 ^ 4 * (5 / 96) := by norm_num
    linarith only [hnum, hc1.1]
  have hc1hi : Real.cos (16.9344 * π / 180) ≤ (0.9567194 : ℝ) := by
    have hnum : (1 : ℝ) - 0.2955609 ^ 2 / 2 + 0.2955611 ^ 4 * (5 / 96) ≤ 0.9567194 := by
      norm_num
    linarith only [hnum, hc1.2]
  have hc1sq := sq_bounds_of (by norm_num : (0 : ℝ) ≤ 0.9559243) hc1lo hc1hi
  have hr1 : (33.8688 : ℝ) * π / 180 = 2 * (16.9344 * π / 180) := by ring
  have hcr1 : Real.cos (33.8688 * π / 180) = 2 * Real.cos (16.9344 * π / 180) ^ 2 - 1 := by
    rw [hr1, Real.cos_two_mul]
  have hcr1lo : (0.827582 : ℝ) ≤ Real.cos (33.8688 * π / 180) := by
    rw [hcr1]
    have hnum : (0.827582 : ℝ) ≤ 2 * (0.9559243 : ℝ) ^ 2 - 1 := by norm_num
    linarith only [hnum, hc1sq.1]
  have hcr1hi : Real.cos (33.8688 * π / 180) ≤ (0.8306241 : ℝ) := by
    rw [hcr1]
    have hnum : 2 * (0.9567194 : ℝ) ^ 2 - 1 ≤ 0.8306241 := by norm_num
    linarith only [hnum, hc1sq.2]
  -- cos(lat2) via the half angle 18.9068°
  have hc2 := cos_interval (by norm_num) hq2i.1 hq2i.2 (by norm_num)
  have hc2lo : (0.94493705 : ℝ) ≤ Real.cos (18.9068 * π / 180) := by
    have hnum : (0.94493705 : ℝ) ≤
        1 - 0.3299860 ^ 2 / 2 - 0.3299860 ^ 4 * (5 / 96) := by norm_num
    linarith only [hnum, hc2.1]
  have hc2hi : Real.cos (18.9068 * π / 180) ≤ (0.9461723 : ℝ) := by
    have hnum : (1 : ℝ) - 0.3299858 ^ 2 / 2 + 0.3299860 ^ 4 * (5 / 96) ≤ 0.9461723 := by
      norm_num
    linarith only [hnum, hc2.2]
  have hc2sq := sq_bounds_of (by norm_num : (0 : ℝ) ≤ 0.94493705) hc2lo hc2hi
  have hr2 : (37.8136 : ℝ) * π / 180 = 2 * (18.9068 * π / 180) := by ring
  have hcr2 : Real.cos (37.8136 * π / 180) = 2 * Real.cos (18.9068 * π / 180) ^ 2 - 1 := by
    rw [hr2, Real.cos_two_mul]
  have hcr2lo : (0.785811 : ℝ) ≤ Real.cos (37.8136 * π / 180) := by
    rw [hcr2]
    have hnum : (0.785811 : ℝ) ≤ 2 * (0.94493705 : ℝ) ^ 2 - 1 := by norm_num
    linarith only [hnum, hc2sq.1]
  have hcr2hi : Real.cos (37.8136 * π / 180) ≤ (0.790485 : ℝ) := by
    rw [hcr2]
    have hnum : 2 * (0.9461723 : ℝ) ^ 2 - 1 ≤ 0.790485 := by norm_num
    linarith only [hnum, hc2sq.2]
  -- the cos product
  have hP := prod_bounds (by norm_num : (0 : ℝ) ≤ 0.827582)
    (by norm_num : (0 : ℝ) ≤ 0.785811) hcr1lo hcr1hi hcr2lo hcr2hi
  have hPlo : (0.65032 : ℝ) ≤
      Real.cos (33.8688 * π / 180) * Real.cos (37.8136 * π / 180) := by
    have hnum : (0.65032 : ℝ) ≤ 0.827582 * 0.785811 := by norm_num
    linarith only [hnum, hP.1]
  have hPhi : Real.cos (33.8688 * π / 180) * Real.cos (37.8136 * π / 180) ≤
      (0.65660 : ℝ) := by
    have hnum : (0.8306241 : ℝ) * 0.790485 ≤ 0.65660 := by norm_num
    linarith only [hnum, hP.2]
  -- the second term of `a`
  have hT2 := prod_bounds (by norm_num : (0 : ℝ) ≤ 0.65032)
    (by norm_num : (0 : ℝ) ≤ (0.0544808 : ℝ) ^ 2) hPlo hPhi hs2sq.1 hs2sq.2
  have hT2lo : (0.0019302 : ℝ) ≤
      Real.cos (33.8688 * π / 180) * Real.cos (37.8136 * π / 180) *
        Real.sin (3.1231 * π / 180) ^ 2 := by
    have hnum : (0.0019302 : ℝ) ≤ 0.65032 * (0.0544808 : ℝ) ^ 2 := by norm_num
    linarith only [hnum, hT2.1]
  have hT2hi : Real.cos (33.8688 * π / 180) * Real.cos (37.8136 * π / 180) *
        Real.sin (3.1231 * π / 180) ^ 2 ≤ (0.0019490 : ℝ) := by
    have hnum : (0.65660 : ℝ) * (0.0544819 : ℝ) ^ 2 ≤ 0.0019490 := by norm_num
    linarith only [hnum, hT2.2]
  have hs1sqlo : (0.0011845 : ℝ) ≤ Real.sin (1.9724 * π / 180) ^ 2 := by
    have hnum : (0.0011845 : ℝ) ≤ (0.0344179 : ℝ) ^ 2 := by norm_num
    linarith only [hnum, hs1sq.1]
  have hs1sqhi : Real.sin (1.9724 * π / 180) ^ 2 ≤ (0.0011847 : ℝ) := by
    have hnum : ((0.0344182 : ℝ)) ^ 2 ≤ 0.0011847 := by norm_num
    linarith only [hnum, hs1sq.2]
  exact ⟨by linarith only [hs1sqlo, hT2lo], by linarith only [hs1sqhi, hT2hi]⟩

/-- If `0 < y ≤ 0.2` and `sin y ≤ 0.056`, then `y ≤ 0.056/0.99 < 0.0565657`. -/
lemma arcsin_upper_aux {y s : ℝ} (hy0 : 0 ≤ y) (hy02 : y ≤ 0.2) (hs : s ≤ 0.056)
    (hsin : Real.sin y = s) (hy0p : 0 < y) : y ≤ 0.0565657 := by
  have hcube := Real.sin_gt_sub_cube hy0p (le_trans hy02 (by norm_num))
  nlinarith [hcube, hs, hsin, hy02, mul_nonneg hy0 (sub_nonneg.mpr hy02),
    mul_nonneg (mul_nonneg hy0 hy0) (sub_nonneg.mpr hy02)]

/-- The Sydney–Melbourne haversine value lies in `[704, 724]` km. -/
lemma hav_SM_bounds :
    (704 : ℝ) ≤ V6.haversineKm (-33.8688) 151.2093 (-37.8136) 144.9631 ∧
    V6.haversineKm (-33.8688) 151.2093 (-37.8136) 144.9631 ≤ 724 := by
  have e1 : ((-37.8136 : ℝ) - -33.8688) * π / 180.0 / 2 = -(1.9724 * π / 180) := by ring
  have e2 : ((144.9631 : ℝ) - 151.2093) * π / 180.0 / 2 = -(3.1231 * π / 180) := by ring
  have e3 : (-33.8688 : ℝ) * π / 180 = -(33.8688 * π / 180) := by ring
  have e4 : (-37.8136 : ℝ) * π / 180 = -(37.8136 * π / 180) := by ring
  have hform : V6.haversineKm (-33.8688) 151.2093 (-37.8136) 144.9631 =
      6371.0 * (2 * atan2
        (Real.sqrt (Real.sin (1.9724 * π / 180) ^ 2 +
          Real.cos (33.8688 * π / 180) * Real.cos (37.8136 * π / 180) *
            Real.sin (3.1231 * π / 180) ^ 2))
        (Real.sqrt (1 - (Real.sin (1.9724 * π / 180) ^ 2 +
          Real.cos (33.8688 * π / 180) * Real.cos (37.8136 * π / 180) *
            Real.sin (3.1231 * π / 180) ^ 2)))) := by
    simp only [V6.haversineKm]
    rw [e1, e2, e3, e4, Real.sin_neg, Real.sin_neg, Real.cos_neg, Real.cos_neg,
      neg_sq, neg_sq]
  obtain ⟨hAlo, hAhi⟩ := sydMelA_bounds
  set A := Real.sin (1.9724 * π / 180) ^ 2 +
    Real.cos (33.8688 * π / 180) * Real.cos (37.8136 * π / 180) *
      Real.sin (3.1231 * π / 180) ^ 2 with hAdef
  have hA0 : (0 : ℝ) < A := lt_of_lt_of_le (by norm_num) hAlo
  have hA1 : A < 1 := lt_of_le_of_lt hAhi (by norm_num)
  have hx : (0 : ℝ) < Real.sqrt (1 - A) := Real.sqrt_pos.mpr (by linarith only [hA1])
  have hatan : atan2 (Real.sqrt A) (Real.sqrt (1 - A)) = Real.arcsin (Real.sqrt A) := by
    unfold atan2
    rw [if_pos hx]
    have hmem : Real.sqrt A ∈ Set.Ioo (-1 : ℝ) 1 := by
      constructor
      · exact lt_of_lt_of_le (by norm_num) (Real.sqrt_nonneg A)
      · exact (Real.sqrt_lt' one_pos).mpr (by rw [one_pow]; exact hA1)
    rw [Real.arcsin_eq_arctan hmem, Real.sq_sqrt (le_of_lt hA0)]
  have hsA : (0.0558 : ℝ) ≤ Real.sqrt A ∧ Real.sqrt A ≤ 0.056 := by
    constructor
    · refine (Real.le_sqrt (by norm_num) (le_of_lt hA0)).mpr ?_
      have hnum : (0.0558 : ℝ) ^ 2 ≤ 0.0031147 := by norm_num
      linarith only [hnum, hAlo]
    · calc Real.sqrt A ≤ Real.sqrt ((0.056 : ℝ) ^ 2) := by
            refine Real.sqrt_le_sqrt ?_
            have hnum : (0.0031337 : ℝ) ≤ (0.056 : ℝ) ^ 2 := by norm_num
            linarith only [hnum, hAhi]
        _ = 0.056 := Real.sqrt_sq (by norm_num)
  have hsin_arcsin : Real.sin (Real.arcsin (Real.sqrt A)) = Real.sqrt A :=
    Real.sin_arcsin (by linarith only [Real.sqrt_nonneg A]) (by linarith only [hsA.2])
  have hy0 : 0 ≤ Real.arcsin (Real.sqrt A) := Real.arcsin_nonneg.mpr (Real.sqrt_nonneg A)
  have hylo : (0.0558 : ℝ) ≤ Real.arcsin (Real.sqrt A) := by
    have h2 : Real.sin (Real.arcsin (Real.sqrt A)) ≤ Real.arcsin (Real.sqrt A) :=
      Real.sin_le hy0
    linarith only [h2, hsA.1, hsin_arcsin]
  have hπ3 : (3 : ℝ) < π := Real.pi_gt_three
  have hs02 : (0.056 : ℝ) < Real.sin 0.2 := by
    have h := Real.sin_gt_sub_cube (by norm_num : (0 : ℝ) < 0.2)
      (by norm_num : (0.2 : ℝ) ≤ 1)
    have hnum : (0.056 : ℝ) < 0.2 - 0.2 ^ 3 / 4 := by norm_num
    linarith only [h, hnum]
  have hy02 : Real.arcsin (Real.sqrt A) ≤ 0.2 := by
    have hmono := Real.monotone_arcsin (le_of_lt (lt_of_le_of_lt hsA.2 hs02))
    rw [Real.arcsin_sin (by linarith only [hπ3]) (by linarith only [hπ3])] at hmono
    exact hmono
  have hyhi : Real.arcsin (Real.sqrt A) ≤ 0.0565657 :=
    arcsin_upper_aux hy0 hy02 hsA.2 hsin_arcsin (lt_of_lt_of_le (by norm_num) hylo)
  rw [hform, hatan]
  exact ⟨by linarith only [hylo], by linarith only [hyhi]⟩

/-- C8: the v6 `haversineKm` is the spherical law of haversines with Earth
radius exactly 6371.0 km (it is 6371.0 times the central angle `havAngle`),
it is a total real-valued function that returns 0 for every pair of
identical coordinates, and on Sydney `(-33.8688, 151.2093)` to Melbourne
`(-37.8136, 144.9631)` it returns 714 ± 10 km. -/
theorem haversine_spec :
    (∀ lat1 lon1 lat2 lon2 : ℝ,
      V6.haversineKm lat1 lon1 lat2 lon2 = 6371.0 * V6.havAngle lat1 lon1 lat2 lon2) ∧
    (∀ lat lon : ℝ, V6.haversineKm lat lon lat lon = 0) ∧
    |V6.haversineKm (-33.8688) 151.2093 (-37.8136) 144.9631 - 714| ≤ 10 := by
  refine ⟨fun _ _ _ _ => rfl, ?_, ?_⟩
  · intro lat lon
    simp only [V6.haversineKm]
    rw [show (lat - lat) * π / 180.0 = 0 by ring, show (lon - lon) * π / 180.0 = 0 by ring]
    norm_num [atan2, Real.arctan_zero]
  · have h := hav_SM_bounds
    rw [abs_le]
    exact ⟨by linarith [h.1], by linarith [h.2]⟩

end EvAtlas
